import Mathlib

set_option maxRecDepth 100000

/-!
FrameFactory core — verification development.

A shallow embedding of the FrameFactory effect-pipeline core:
the CPython `random` module generator (MT19937, as used by the effects via
`random.seed` / `randint` / `random` / `sample` / `shuffle`), the image
buffer model with the numpy operations the effects use (`rot90`, `flip`,
`roll`, slicing, region assignment with broadcasting), the `Posterize`,
`BlockShuffle` and `ShiftRowsColumns` effects, and the `Pipeline`
state machine (mutations, snapshot history, undo/redo, `apply`,
`from_dict`).

Machine floats that appear in the sources are modelled as exact rationals;
every concrete value evaluated in a proof below is exactly representable
in binary floating point, so the rational model agrees with the float
computation at those points.
-/

namespace FrameFactory

/-! ## CPython `random`: MT19937

Model of the global Mersenne-Twister generator of CPython's `random`
module: `init_genrand` / `init_by_array` seeding (as invoked by
`random.seed(int)`, which seeds with the 32-bit little-endian digits of
the absolute value of the argument), `genrand_uint32` with tempering,
`getrandbits`, `_randbelow_with_getrandbits`, `randint`, `random()`,
`sample` and `shuffle`.
-/

/-- Reduce to a 32-bit word. -/
def m32 (n : Nat) : Nat := n % 4294967296

/-- State of the Mersenne Twister: 624 32-bit words plus the output index. -/
structure MT where
  mt : List Nat
  idx : Nat
deriving DecidableEq, Repr

/-- `init_genrand` recurrence: mt[i] = 1812433253 * (mt[i-1] xor (mt[i-1] >> 30)) + i. -/
def initGenrandAux (prev : Nat) (i : Nat) : Nat → List Nat
  | 0 => []
  | n + 1 =>
    let v := m32 (1812433253 * (prev ^^^ (prev >>> 30)) + i)
    v :: initGenrandAux v (i + 1) n

/-- `init_genrand(s)`: the 624-word state array. -/
def initGenrand (s : Nat) : List Nat :=
  let m0 := m32 s
  m0 :: initGenrandAux m0 1 623

/-- One sequential pass of `init_by_array` over the state, as a list zipper:
`done` holds positions `0..i-1` reversed, `todo` positions `i..623`.  When
`i` reaches 624 the loop copies `mt[623]` into `mt[0]` and restarts at
index 1, exactly as the C code does.  `f` receives the index `i`, the
previous word `mt[i-1]`, the current word `mt[i]` and the step counter.
Returns the rebuilt state together with the final index. -/
def ibaRun (f : Nat → Nat → Nat → Nat → Nat) :
    Nat → Nat → Nat → List Nat → List Nat → List Nat × Nat
  | 0, _, i, done, todo => (done.reverse ++ todo, i)
  | steps + 1, t, i, done, todo =>
    match todo, done with
    | cur :: todoRest, prev :: _ =>
      let v := f i prev cur t
      let done := v :: done
      let i := i + 1
      if i ≥ 624 then
        match done.reverse with
        | _ :: rest => ibaRun f steps (t + 1) 1 [v] rest
        | [] => ([], i)
      else ibaRun f steps (t + 1) i done todoRest
    | _, _ => (done.reverse ++ todo, i)

/-- `init_by_array(key)`: the first pass mixes in the key words (multiplier
1664525, key index `t mod key.length`), the second subtracts the position
(multiplier 1566083941), then `mt[0]` is forced to `0x80000000`. -/
def initByArray (key : List Nat) : List Nat :=
  let mtl := initGenrand 19650218
  let klen := key.length
  let k := max 624 klen
  let fA := fun _ prev cur t =>
    m32 ((cur ^^^ ((prev ^^^ (prev >>> 30)) * 1664525)) + key.getD (t % klen) 0 + t % klen)
  let fB := fun i prev cur _ =>
    m32 ((cur ^^^ ((prev ^^^ (prev >>> 30)) * 1566083941)) + 4294967296 - i)
  let (mtl, i) :=
    match mtl with
    | m0 :: rest => ibaRun fA k 0 1 [m0] rest
    | [] => ([], 1)
  let (mtl, _) := ibaRun fB 623 0 i ((mtl.take i).reverse) (mtl.drop i)
  match mtl with
  | _ :: rest => 2147483648 :: rest
  | [] => []

/-- 32-bit little-endian digits of a natural number (`[0]` for zero), as
CPython's `random_seed` passes them to `init_by_array`. -/
def natToKeyAux : Nat → Nat → List Nat
  | 0, _ => []
  | _, 0 => []
  | f + 1, n => m32 n :: natToKeyAux f (n / 4294967296)

def natToKey (n : Nat) : List Nat :=
  if n = 0 then [0] else natToKeyAux n n

/-- `random.seed(n)` for a natural number argument. The fresh state has
`idx = 624`, so the first draw triggers a full twist. -/
def pySeedNat (n : Nat) : MT :=
  ⟨initByArray (natToKey n), 624⟩

/-- `random.seed(z)` for an integer: CPython seeds with the absolute value. -/
def pySeedInt (z : Int) : MT :=
  pySeedNat z.natAbs

/-- One twist step: combine the top bit of `a` with the low bits of `b`,
shift and conditionally xor the matrix constant. -/
def twistMix (a b c : Nat) : Nat :=
  let y := (a &&& 2147483648) ||| (b &&& 2147483647)
  c ^^^ (y >>> 1) ^^^ (if y % 2 = 1 then 2567483615 else 0)

/-- Indices 227..622 of the twist read the freshly written word 227 places
behind; `feed` carries those pending words. -/
def twistBack : List Nat → List (Nat × Nat) → List Nat
  | _, [] => []
  | [], _ :: _ => []
  | f :: feed, (a, b) :: rest =>
    let v := twistMix a b f
    v :: twistBack (feed ++ [v]) rest

/-- Regenerate all 624 words (the MT19937 twist). -/
def twist (mtl : List Nat) : List Nat :=
  let p1 := List.zipWith3 (fun a b c => twistMix a b c) (mtl.take 227) (mtl.drop 1) (mtl.drop 397)
  let p2 := twistBack p1 ((mtl.drop 227).zip (mtl.drop 228))
  let lastW :=
    let n0 := p1.headD 0
    let n396 := (p1 ++ p2).getD 396 0
    twistMix (mtl.getD 623 0) n0 n396
  p1 ++ p2 ++ [lastW]

/-- `genrand_uint32`: twist when exhausted, then output one tempered word. -/
def MT.next (g : MT) : Nat × MT :=
  let g := if g.idx ≥ 624 then MT.mk (twist g.mt) 0 else g
  let y := g.mt.getD g.idx 0
  let y := y ^^^ (y >>> 11)
  let y := y ^^^ ((y <<< 7) &&& 2636928640)
  let y := y ^^^ ((y <<< 15) &&& 4022730752)
  let y := y ^^^ (y >>> 18)
  (y, MT.mk g.mt (g.idx + 1))

/-- `getrandbits(k)` for `1 ≤ k ≤ 32`: the top `k` bits of one word. -/
def getrandbits (g : MT) (k : Nat) : Nat × MT :=
  let (y, g) := g.next
  (y >>> (32 - k), g)

/-- Retry loop of `_randbelow_with_getrandbits`. CPython retries without
bound; the model carries fuel, never exhausted in any evaluation below. -/
def randbelowAux (n k : Nat) : Nat → MT → Nat × MT
  | 0, g => (0, g)
  | f + 1, g =>
    let (r, g') := getrandbits g k
    if r < n then (r, g') else randbelowAux n k f g'

/-- `_randbelow(n)`: a uniform draw from `[0, n)`. -/
def randbelow (g : MT) (n : Nat) : Nat × MT :=
  if n = 0 then (0, g) else randbelowAux n (Nat.log2 n + 1) 64 g

/-- `random.randint(a, b)`. CPython raises `ValueError` when `b < a`; no
claim exercises that path, so the model returns `a` there. -/
def randint (g : MT) (a b : Int) : Int × MT :=
  if b < a then (a, g)
  else
    let (r, g') := randbelow g (b - a + 1).toNat
    (a + r, g')

/-- `random.random()`: 53 random bits as a dyadic rational in `[0, 1)`. -/
def MT.randomQ (g : MT) : ℚ × MT :=
  let (u1, g) := g.next
  let (u2, g) := g.next
  ((((u1 >>> 5) * 67108864 + (u2 >>> 6) : Nat) : ℚ) / 9007199254740992, g)

/-- `random.uniform(a, b)`: `a + (b - a) * random()`. -/
def pyUniform (g : MT) (a b : ℚ) : ℚ × MT :=
  let (r, g) := MT.randomQ g
  (a + (b - a) * r, g)

/-- `n` successive `random.uniform(a, b)` draws (a list comprehension). -/
def drawUniformList (a b : ℚ) : Nat → MT → List ℚ × MT
  | 0, g => ([], g)
  | n + 1, g =>
    let (v, g) := pyUniform g a b
    let (rest, g) := drawUniformList a b n g
    (v :: rest, g)

/-- `random.shuffle`: Fisher-Yates from the top; processes index `i ≥ 1`
with a draw from `[0, i]`. -/
def shuffleLoop : Nat → List Nat → MT → List Nat × MT
  | 0, xs, g => (xs, g)
  | i + 1, xs, g =>
    let (j, g) := randbelow g (i + 2)
    let xi := xs.getD (i + 1) 0
    let xj := xs.getD j 0
    let xs := (xs.set (i + 1) xj).set j xi
    shuffleLoop i xs g

def pyShuffle (g : MT) (xs : List Nat) : List Nat × MT :=
  let (ys, g) := shuffleLoop (xs.length - 1) xs g
  (ys, g)

/-- Least `m` with `4 ^ m ≥ n` (the value of `ceil(log(n, 4))` for the
never-integral logarithms that `sample` takes). -/
def ceilLog4Aux : Nat → Nat → Nat → Nat
  | 0, _, _ => 0
  | f + 1, p, n => if p ≥ n then 0 else 1 + ceilLog4Aux f (p * 4) n

def ceilLog4 (n : Nat) : Nat := ceilLog4Aux n 1 n

/-- Partial-shuffle loop of `random.sample` (the `n <= setsize` branch):
pick index `j < n - i`, take `pool[j]`, overwrite it with `pool[n-i-1]`. -/
def samplePool (n : Nat) : Nat → Nat → List Nat → MT → List Nat × MT
  | 0, _, _, g => ([], g)
  | k + 1, i, pool, g =>
    let (j, g) := randbelow g (n - i)
    let v := pool.getD j 0
    let pool := pool.set j (pool.getD (n - i - 1) 0)
    let (rest, g) := samplePool n k (i + 1) pool g
    (v :: rest, g)

/-- Selection-set loop of `random.sample` (the large-population branch);
rejects already-selected indices, with fuel for the rejection loop. -/
def sampleSelAux (n : Nat) (selected : List Nat) : Nat → MT → Nat × MT
  | 0, g => (0, g)
  | f + 1, g =>
    let (j, g) := randbelow g n
    if selected.contains j then sampleSelAux n selected f g else (j, g)

def sampleSel (population : List Nat) (n : Nat) : Nat → List Nat → MT → List Nat × MT
  | 0, _, g => ([], g)
  | k + 1, selected, g =>
    let (j, g) := sampleSelAux n selected 64 g
    let (rest, g) := sampleSel population n k (j :: selected) g
    (population.getD j 0 :: rest, g)

/-- `random.sample(population, k)`: `ValueError` when `k` is negative or
exceeds the population size. -/
def pySample (g : MT) (population : List Nat) (k : Int) : Except String (List Nat) × MT :=
  let n := population.length
  if k < 0 ∨ (n : Int) < k then
    (.error "ValueError: Sample larger than population or is negative", g)
  else
    let kn := k.toNat
    let setsize := 21 + (if kn > 5 then 4 ^ ceilLog4 (kn * 3) else 0)
    if n ≤ setsize then
      let (res, g) := samplePool n kn 0 population g
      (.ok res, g)
    else
      let (res, g) := sampleSel population n kn [] g
      (.ok res, g)

/-! ## Image buffers and the numpy operations the effects use

An image is a height × width × channels array of 8-bit samples, modelled
as dimensions plus a total indexing function (row `y`, column `x`,
channel `ch`). -/

structure Image where
  h : Nat
  w : Nat
  c : Nat
  pix : Nat → Nat → Nat → Nat

def Image.empty : Image := ⟨0, 0, 0, fun _ _ _ => 0⟩

/-- Buffer equality: equal shape and equal samples over the extent. -/
def Image.eqb (a b : Image) : Bool :=
  a.h == b.h && a.w == b.w && a.c == b.c &&
    (List.range a.h).all fun y =>
      (List.range a.w).all fun x =>
        (List.range a.c).all fun ch => a.pix y x ch == b.pix y x ch

/-- `ndarray.copy()`: value semantics in the pure model. -/
def Image.copy (im : Image) : Image := im

/-- `image[y1:y2, x1:x2]` for `y1 ≤ y2 ≤ h`, `x1 ≤ x2 ≤ w`. -/
def Image.slice (im : Image) (y1 y2 x1 x2 : Nat) : Image :=
  ⟨y2 - y1, x2 - x1, im.c, fun y x ch => im.pix (y1 + y) (x1 + x) ch⟩

/-- `np.rot90(m)`: one counterclockwise quarter turn. -/
def Image.rot90 (im : Image) : Image :=
  ⟨im.w, im.h, im.c, fun y x ch => im.pix x (im.w - 1 - y) ch⟩

/-- `np.rot90(m, k)`. -/
def Image.rot90k (im : Image) (k : Nat) : Image :=
  Nat.rec im (fun _ r => r.rot90) (k % 4)

/-- `np.flip(m, axis=0)`. -/
def Image.flipV (im : Image) : Image :=
  ⟨im.h, im.w, im.c, fun y x ch => im.pix (im.h - 1 - y) x ch⟩

/-- `np.flip(m, axis=1)`. -/
def Image.flipH (im : Image) : Image :=
  ⟨im.h, im.w, im.c, fun y x ch => im.pix y (im.w - 1 - x) ch⟩

/-- `np.roll(m, (dy, dx), axis=(0, 1))`. -/
def Image.roll2 (im : Image) (dy dx : Int) : Image :=
  ⟨im.h, im.w, im.c, fun y x ch =>
    im.pix (((y : Int) - dy).emod im.h).toNat (((x : Int) - dx).emod im.w).toNat ch⟩

/-- `dst[y1:y2, x1:x2] = b`: numpy broadcasts `b` onto the region and
raises `ValueError` when a dimension neither matches nor is 1. -/
def Image.assign (dst : Image) (y1 y2 x1 x2 : Nat) (b : Image) : Except String Image :=
  let dh := y2 - y1
  let dw := x2 - x1
  if (b.h = dh ∨ b.h = 1) ∧ (b.w = dw ∨ b.w = 1) ∧ (b.c = dst.c ∨ b.c = 1) then
    .ok ⟨dst.h, dst.w, dst.c, fun y x ch =>
      if y1 ≤ y ∧ y < y2 ∧ x1 ≤ x ∧ x < x2 then
        b.pix (if b.h = 1 then 0 else y - y1) (if b.w = 1 then 0 else x - x1)
          (if b.c = 1 then 0 else ch)
      else dst.pix y x ch⟩
  else .error "ValueError: could not broadcast input array"

/-- Truth of a predicate under `Except.ok` (false on `error`). -/
def ExceptOkP (P : Image → Prop) : Except String Image → Prop
  | .ok im => P im
  | .error _ => False

def exceptOkAnd (p : Image → Bool) : Except String Image → Bool
  | .ok im => p im
  | .error _ => false

def exceptIsErr : Except String Image → Bool
  | .ok _ => false
  | .error _ => true

/-- Python `max` / `min` on integers (kept away from the lattice
notation so that they reduce by computation). -/
def pyMaxI (a b : Int) : Int := if a ≤ b then b else a

def pyMinI (a b : Int) : Int := if a ≤ b then a else b

/-- Python `max` / `min` on (exact-rational models of) floats. -/
def pyMaxQ (a b : ℚ) : ℚ := if a ≤ b then b else a

def pyMinQ (a b : ℚ) : ℚ := if a ≤ b then a else b

/-- `int(q)` on a Python float: truncation toward zero, exact on rationals. -/
def ratTrunc (q : ℚ) : Int := Int.tdiv q.num q.den

/-! ## `Effect.randomize` base implementation (base.py lines 25-31):
reseed the shared global generator when a seed is given, return the
parameters unchanged. -/

def Effect.randomize {π : Type} (g : MT) (params : π) (seed : Option Int) : π × MT :=
  match seed with
  | some s => (params, pySeedInt s)
  | none => (params, g)

/-! ## Posterize (color.py lines 188-232) -/

structure PosterizeParams where
  levels : Int
  dither : Bool

namespace Posterize

/-- The 4×4 Bayer threshold `bayer[y mod 4][x mod 4] / 16`. -/
def bayerQ (y x : Nat) : ℚ :=
  ((([[0, 8, 2, 10], [12, 4, 14, 6], [3, 11, 1, 9], [15, 7, 13, 5]].getD (y % 4) []).getD
    (x % 4) 0 : Nat) : ℚ) / 16

/-- `_ordered_dither`. `image[y, x]` is a vector of the channel samples;
for more than one channel the `if` on the component-wise comparison
raises `ValueError` (ambiguous truth value of an array), while a single
channel behaves as the scalar formula. -/
def ordered_dither (image : Image) (levels : Int) : Except String Image :=
  let step : Int := Int.fdiv 256 levels
  if image.c ≠ 1 then
    .error "ValueError: The truth value of an array with more than one element is ambiguous"
  else
    .ok ⟨image.h, image.w, image.c, fun y x ch =>
      let value : ℚ := (image.pix y x ch : Nat)
      let quantized : ℚ := ((⌊value / (step : ℚ)⌋ : Int) : ℚ) * (step : ℚ)
      let quantized : ℚ :=
        if (value - (step : ℚ) * ((⌊value / (step : ℚ)⌋ : Int) : ℚ)) / (step : ℚ) > bayerQ y x
        then min 255 (quantized + (step : ℚ)) else quantized
      (ratTrunc quantized).toNat % 256⟩

/-- `Posterize.apply`: clamp `levels` to `[2, 256]`; without dithering,
quantize each sample to `(sample // step) * step` with `step = 256 // levels`. -/
def apply (image : Image) (params : PosterizeParams) : Except String Image :=
  let levels := pyMaxI 2 (pyMinI 256 params.levels)
  if params.dither then
    ordered_dither image levels
  else
    let step : Nat := (Int.fdiv 256 levels).toNat
    .ok ⟨image.h, image.w, image.c, fun y x ch => (image.pix y x ch / step * step) % 256⟩

end Posterize

/-! ## BlockShuffle (block_shuffle.py) -/

structure BSParams where
  block_size : Int
  shuffle_strength : ℚ
  block_transform : String
  seed : Int

namespace BlockShuffle

/-- `_transform_block`: `"none"` returns the block untouched (no reseed);
otherwise the global generator is reseeded with the per-tile seed and the
chosen transform is applied to a copy. -/
def transform_block (g : MT) (block : Image) (transform : String) (seed : Int) : Image × MT :=
  if transform = "none" then (block, g)
  else
    let g := pySeedInt seed
    let result := block.copy
    if transform = "rotate" then
      let (k, g) := randint g 1 3
      (result.rot90k k.toNat, g)
    else if transform = "flip" then
      let (r, g) := MT.randomQ g
      if r < 1 / 2 then (result.flipV, g) else (result.flipH, g)
    else if transform = "jitter" then
      let (offset_y, g) := randint g (-2) 2
      let (offset_x, g) := randint g (-2) 2
      if offset_x ≠ 0 ∨ offset_y ≠ 0 then (result.roll2 offset_y offset_x, g)
      else (result, g)
    else (result, g)

/-- The nested `for by in range(num_blocks_y): for bx in range(num_blocks_x)`
enumeration, as flat tile indices `t = by * num_blocks_x + bx`. -/
def gridPairs (nby nbx : Nat) : List (Nat × Nat) :=
  (List.range (nby * nbx)).map fun t => (t / nbx, t % nbx)

/-- `shuffle_map`: identity over the tile indices, then each selected tile
maps to the next selected tile in shuffle order (cyclically). -/
def buildShuffleMap (ini : List Nat) (shuffled : List Nat) : List Nat :=
  (List.range shuffled.length).foldl
    (fun m i => m.set (shuffled.getD i 0) (shuffled.getD ((i + 1) % shuffled.length) 0)) ini

/-- Tile extraction loop: clip each tile at the image bounds, apply the
optional per-tile transform with seed `seed + by * num_blocks_x + bx`. -/
def extractLoop (img : Image) (bs nbx : Nat) (transform : String) (seed : Int) :
    List (Nat × Nat) → MT → List Image × MT
  | [], g => ([], g)
  | (bi, bj) :: rest, g =>
    let y1 := bi * bs
    let y2 := min (y1 + bs) img.h
    let x1 := bj * bs
    let x2 := min (x1 + bs) img.w
    let block := (img.slice y1 y2 x1 x2).copy
    let (block, g) := transform_block g block transform (seed + (bi : Int) * nbx + bj)
    let (blocks, g) := extractLoop img bs nbx transform seed rest g
    (block :: blocks, g)

/-- Reassembly loop: a tile is overwritten by its source tile's content
only when source and destination grid extents agree; the numpy region
assignment itself can still fail when the stored block's actual shape
(changed by `rot90`) does not broadcast onto the region. -/
def reassembleLoop (img : Image) (bs nbx : Nat) (shuffle_map shuffled : List Nat)
    (blocks : List Image) : List (Nat × Nat) → Image → Except String Image
  | [], result => .ok result
  | (bi, bj) :: rest, result =>
    let block_idx := bi * nbx + bj
    let target_idx := shuffle_map.getD block_idx block_idx
    let sb := if shuffled.contains block_idx then (target_idx / nbx, target_idx % nbx)
              else (bi, bj)
    let y1 := bi * bs
    let y2 := min (y1 + bs) img.h
    let x1 := bj * bs
    let x2 := min (x1 + bs) img.w
    let sy1 := sb.1 * bs
    let sy2 := min (sy1 + bs) img.h
    let sx1 := sb.2 * bs
    let sx2 := min (sx1 + bs) img.w
    if sy2 - sy1 = y2 - y1 ∧ sx2 - sx1 = x2 - x1 then
      match result.assign y1 y2 x1 x2 (blocks.getD target_idx Image.empty) with
      | .ok r => reassembleLoop img bs nbx shuffle_map shuffled blocks rest r
      | .error e => .error e
    else reassembleLoop img bs nbx shuffle_map shuffled blocks rest result

/-- `BlockShuffle.apply`.  `block_size = 0` raises `ZeroDivisionError`
before the generator is touched; a negative `num_shuffled` or one larger
than the tile count raises `ValueError` inside `random.sample`. -/
def apply (g : MT) (image : Image) (params : BSParams) : Except String Image × MT :=
  let block_size := params.block_size
  if block_size = 0 then
    (.error "ZeroDivisionError: integer division or modulo by zero", g)
  else
    let num_blocks_y : Int := Int.fdiv ((image.h : Int) + block_size - 1) block_size
    let num_blocks_x : Int := Int.fdiv ((image.w : Int) + block_size - 1) block_size
    let total_blocks : Int := num_blocks_y * num_blocks_x
    let result := image.copy
    let g := pySeedInt params.seed
    let num_shuffled : Int := ratTrunc ((total_blocks : ℚ) * params.shuffle_strength)
    match pySample g (List.range total_blocks.toNat) num_shuffled with
    | (.error e, g) => (.error e, g)
    | (.ok sampled, g) =>
      let (shuffled_indices, g) := pyShuffle g sampled
      let shuffle_map := buildShuffleMap (List.range total_blocks.toNat) shuffled_indices
      let pairs := gridPairs num_blocks_y.toNat num_blocks_x.toNat
      let (blocks, g) :=
        extractLoop image block_size.toNat num_blocks_x.toNat params.block_transform
          params.seed pairs g
      (reassembleLoop image block_size.toNat num_blocks_x.toNat shuffle_map shuffled_indices
        blocks pairs result, g)

end BlockShuffle

/-! ## ShiftRowsColumns (shift.py) -/

structure ShiftParams where
  direction : String
  max_shift : Int
  smoothness : ℚ
  seed : Int
  wrap_mode : String

namespace ShiftRowsColumns

/-- Tail of the shift-generation loop: each later entry smooths the
previous entry toward a fresh uniform draw, truncated by `int(...)`. -/
def gen_shifts_aux (max_shift : Int) (smoothness : ℚ) : Int → Nat → MT → List Int × MT
  | _, 0, g => ([], g)
  | prev, n + 1, g =>
    let (new_shift, g) := randint g (-max_shift) max_shift
    let s := ratTrunc ((prev : ℚ) * smoothness + (new_shift : ℚ) * (1 - smoothness))
    let (rest, g) := gen_shifts_aux max_shift smoothness s n g
    (s :: rest, g)

/-- The full shift-generation loop (shift.py lines 56-65 and 88-96):
the first entry is drawn directly. -/
def gen_shifts (max_shift : Int) (smoothness : ℚ) : Nat → MT → List Int × MT
  | 0, g => ([], g)
  | n + 1, g =>
    let (shift, g) := randint g (-max_shift) max_shift
    let (rest, g) := gen_shifts_aux max_shift smoothness shift n g
    (shift :: rest, g)

/-- Row shifts: generated after reseeding with the base seed. -/
def row_shifts (seed max_shift : Int) (smoothness : ℚ) (h : Nat) : List Int × MT :=
  gen_shifts max_shift smoothness h (pySeedInt seed)

/-- Column shifts: generated after reseeding with `seed + 1000`. -/
def col_shifts (seed max_shift : Int) (smoothness : ℚ) (w : Nat) : List Int × MT :=
  gen_shifts max_shift smoothness w (pySeedInt (seed + 1000))

/-- `np.roll(image[y], s, axis=0)` at column `x`. -/
def rolledRow (img : Image) (s : Int) (y x ch : Nat) : Nat :=
  img.pix y (((x : Int) - s).emod img.w).toNat ch

/-- `_apply_wrap_mode` on a row: `"clamp"` restores the leading (trailing)
`|s|` samples from the original row, the other modes keep the circular
roll (`"reflect"` included). -/
def wrapModeRow (img : Image) (wrap_mode : String) (s : Int) (y x ch : Nat) : Nat :=
  if wrap_mode = "wrap" then rolledRow img s y x ch
  else if wrap_mode = "reflect" then rolledRow img s y x ch
  else if wrap_mode = "clamp" then
    if (0 < s ∧ (x : Int) < s) ∨ (s < 0 ∧ (img.w : Int) + s ≤ (x : Int)) then img.pix y x ch
    else rolledRow img s y x ch
  else rolledRow img s y x ch

/-- `np.roll(image[:, x], s, axis=0)` at row `y`. -/
def rolledCol (img : Image) (s : Int) (y x ch : Nat) : Nat :=
  img.pix (((y : Int) - s).emod img.h).toNat x ch

def wrapModeCol (img : Image) (wrap_mode : String) (s : Int) (y x ch : Nat) : Nat :=
  if wrap_mode = "wrap" then rolledCol img s y x ch
  else if wrap_mode = "reflect" then rolledCol img s y x ch
  else if wrap_mode = "clamp" then
    if (0 < s ∧ (y : Int) < s) ∨ (s < 0 ∧ (img.h : Int) + s ≤ (y : Int)) then img.pix y x ch
    else rolledCol img s y x ch
  else rolledCol img s y x ch

/-- `_shift_rows`: one shift per row; a zero shift copies the row. -/
def shift_rows (image : Image) (max_shift : Int) (smoothness : ℚ) (wrap_mode : String)
    (seed : Int) : Image × MT :=
  let (shifts, g) := row_shifts seed max_shift smoothness image.h
  (⟨image.h, image.w, image.c, fun y x ch =>
    let s := shifts.getD y 0
    if s = 0 then image.pix y x ch else wrapModeRow image wrap_mode s y x ch⟩, g)

/-- `_shift_columns`: one shift per column, from the offset seed. -/
def shift_columns (image : Image) (max_shift : Int) (smoothness : ℚ) (wrap_mode : String)
    (seed : Int) : Image × MT :=
  let (shifts, g) := col_shifts seed max_shift smoothness image.w
  (⟨image.h, image.w, image.c, fun y x ch =>
    let s := shifts.getD x 0
    if s = 0 then image.pix y x ch else wrapModeCol image wrap_mode s y x ch⟩, g)

/-- `ShiftRowsColumns.apply`: reseed, then shift rows and/or columns
(each pass reseeds on its own, rows with `seed`, columns with `seed + 1000`). -/
def apply (g0 : MT) (image : Image) (params : ShiftParams) : Image × MT :=
  let _ := g0
  let g := pySeedInt params.seed
  let result := image.copy
  let (result, g) :=
    if params.direction = "rows" ∨ params.direction = "both" then
      shift_rows result params.max_shift params.smoothness params.wrap_mode params.seed
    else (result, g)
  let (result, g) :=
    if params.direction = "columns" ∨ params.direction = "both" then
      shift_columns result params.max_shift params.smoothness params.wrap_mode params.seed
    else (result, g)
  (result, g)

end ShiftRowsColumns

/-! ## Warp (warp.py)

`math.sin`, `math.cos` and `math.radians` (on 64-bit floats) and
`cv2.remap` (with its fixed `BORDER_REFLECT_101` border mode) are pure
functions of external libraries, not code of this repository; the
embedding takes them as function parameters (`msin`, `mcos`, `mradians`,
`remapFn`), so every theorem below quantifying over them holds in
particular for the actual library implementations.  Float values are
exact rationals as everywhere in this file; `math.pi` is the exact
rational value of the 64-bit float constant. -/

structure WarpParams where
  type : String
  amount : ℚ
  scale : ℚ
  angle : ℚ
  seed : Int
  interpolation : String

namespace Warp

/-- The exact rational value of the float64 constant `math.pi`. -/
def mathPiQ : ℚ := 884279719003555 / 281474976710656

/-- `interp_map.get(interpolation, cv2.INTER_CUBIC)` with the OpenCV flag
values `INTER_NEAREST = 0`, `INTER_LINEAR = 1`, `INTER_CUBIC = 2`. -/
def interpFlag (s : String) : Nat :=
  if s = "nearest" then 0
  else if s = "bilinear" then 1
  else if s = "bicubic" then 2
  else 2

/-- `max(0, min(lim - 1, v))`: clamp a coordinate to the canvas. -/
def clampCoord (lim : Nat) (v : ℚ) : ℚ :=
  pyMaxQ 0 (pyMinQ ((lim : ℚ) - 1) v)

/-- One axis of the `_apply_noise` displacement: the sum of the three
sine terms `amount * sin(t * freqs[i] / scale + phases[i]) / 3`. -/
def noiseOffset (msin : ℚ → ℚ) (amount scale : ℚ) (freqs phases : List ℚ) (t : Nat) : ℚ :=
  (List.range 3).foldl
    (fun acc i => acc + amount * msin ((t : ℚ) * freqs.getD i 0 / scale + phases.getD i 0) / 3) 0

/-- `Warp.apply`: build the inverse coordinate maps (`wave` rotates and
adds a sinusoidal offset; `noise` reseeds the global generator and draws
three random phases and frequencies per axis), clamp them to the canvas,
and remap the image with the selected interpolation.  Python raises
`ZeroDivisionError` for `scale = 0.0`; rational division by zero yields 0
instead — no claim exercises that path. -/
def apply (msin mcos mradians : ℚ → ℚ)
    (remapFn : Image → (Nat → Nat → ℚ) → (Nat → Nat → ℚ) → Nat → Image)
    (g : MT) (image : Image) (params : WarpParams) : Image × MT :=
  let h := image.h
  let w := image.w
  let baseX : Nat → Nat → ℚ := fun _ x => (x : ℚ)
  let baseY : Nat → Nat → ℚ := fun y _ => (y : ℚ)
  let (mapX, mapY, g) :=
    if params.type = "wave" then
      let angle_rad := mradians params.angle
      let cos_a := mcos angle_rad
      let sin_a := msin angle_rad
      ((fun (y x : Nat) =>
          let rx := (x : ℚ) * cos_a - (y : ℚ) * sin_a
          let ry := (x : ℚ) * sin_a + (y : ℚ) * cos_a
          let offset_x := params.amount * msin (ry / params.scale)
          let offset_y := params.amount * mcos (rx / params.scale)
          clampCoord w ((x : ℚ) + offset_x * cos_a - offset_y * sin_a)),
       (fun (y x : Nat) =>
          let rx := (x : ℚ) * cos_a - (y : ℚ) * sin_a
          let ry := (x : ℚ) * sin_a + (y : ℚ) * cos_a
          let offset_x := params.amount * msin (ry / params.scale)
          let offset_y := params.amount * mcos (rx / params.scale)
          clampCoord h ((y : ℚ) + offset_x * sin_a + offset_y * cos_a)),
       g)
    else if params.type = "noise" then
      let g := pySeedInt params.seed
      let (phases_x, g) := drawUniformList 0 (2 * mathPiQ) 3 g
      let (phases_y, g) := drawUniformList 0 (2 * mathPiQ) 3 g
      let (freqs_x, g) := drawUniformList (1 / 2) 2 3 g
      let (freqs_y, g) := drawUniformList (1 / 2) 2 3 g
      ((fun (_ x : Nat) =>
          clampCoord w ((x : ℚ) + noiseOffset msin params.amount params.scale freqs_x phases_x x)),
       (fun (y _ : Nat) =>
          clampCoord h ((y : ℚ) + noiseOffset msin params.amount params.scale freqs_y phases_y y)),
       g)
    else (baseX, baseY, g)
  (remapFn image mapX mapY (interpFlag params.interpolation), g)

end Warp

/-! ## Pipeline (core/pipeline.py)

The pipeline is generic in the effect-class type `κ` and the parameter-set
type `π` (the Python module is duck-typed in both).  `deepcopy` of a
parameter set is content-identity in the pure model. -/

/-- An effect instance: effect class, parameter set, enabled flag. -/
structure EffectInstance (κ π : Type) where
  effect_class : κ
  params : π
  enabled : Bool
deriving DecidableEq

/-- `EffectInstance.apply`: skip when disabled, else dispatch to the
effect class's `apply` (passed in as `applyFn`, since the Python code is
duck-typed over effect classes).  An `Except.error` models a raised
exception. -/
def EffectInstance.applyE {κ π : Type} (applyFn : κ → Image → π → Except String Image)
    (e : EffectInstance κ π) (image : Image) : Except String Image :=
  if e.enabled = false then .ok image else applyFn e.effect_class image e.params

/-- Pipeline state: current instance list, snapshot history, cursor
(`-1` on a fresh pipeline), and the history cap (50 in the source). -/
structure Pipeline (κ π : Type) where
  effects : List (EffectInstance κ π)
  history : List (List (EffectInstance κ π))
  history_index : Int
  max_history : Nat
deriving DecidableEq

namespace Pipeline

variable {κ π : Type}

/-- `Pipeline.__init__`. -/
def init : Pipeline κ π := ⟨[], [], -1, 50⟩

/-- `_save_state`: truncate the future, append a snapshot of the current
list, advance the cursor, then evict the oldest snapshot when the cap is
exceeded. -/
def save_state (p : Pipeline κ π) : Pipeline κ π :=
  let state_copy := p.effects
  let hist :=
    if p.history_index < (p.history.length : Int) - 1 then
      p.history.take (p.history_index + 1).toNat
    else p.history
  let hist := hist ++ [state_copy]
  let idx := p.history_index + 1
  if (hist.length : Int) > (p.max_history : Int) then
    { p with history := hist.drop 1, history_index := idx - 1 }
  else
    { p with history := hist, history_index := idx }

def add_effect (p : Pipeline κ π) (effect_class : κ) (params : π) : Pipeline κ π :=
  ({ p with effects := p.effects ++ [EffectInstance.mk effect_class params true] }).save_state

def remove_effect (p : Pipeline κ π) (index : Int) : Pipeline κ π :=
  if 0 ≤ index ∧ index < (p.effects.length : Int) then
    ({ p with effects := p.effects.eraseIdx index.toNat }).save_state
  else p

/-- Replace the element at an index (helper for the two in-place updates). -/
def listModify {α : Type} (f : α → α) : Nat → List α → List α
  | _, [] => []
  | 0, x :: xs => f x :: xs
  | n + 1, x :: xs => x :: listModify f n xs

def set_effect_enabled (p : Pipeline κ π) (index : Int) (enabled : Bool) : Pipeline κ π :=
  if 0 ≤ index ∧ index < (p.effects.length : Int) then
    let es := listModify (fun e => { e with enabled := enabled }) index.toNat p.effects
    ({ p with effects := es }).save_state
  else p

def update_effect_params (p : Pipeline κ π) (index : Int) (params : π) : Pipeline κ π :=
  if 0 ≤ index ∧ index < (p.effects.length : Int) then
    let es := listModify (fun e => { e with params := params }) index.toNat p.effects
    ({ p with effects := es }).save_state
  else p

/-- `list.pop(i)` for a valid index. -/
def listPopAt {α : Type} : Nat → List α → Option (α × List α)
  | _, [] => none
  | 0, x :: xs => some (x, xs)
  | n + 1, x :: xs => (listPopAt n xs).map fun er => (er.1, x :: er.2)

/-- `list.insert(i, v)`: Python clamps an index past the end to append. -/
def listInsertAt {α : Type} (v : α) : Nat → List α → List α
  | _, [] => [v]
  | 0, xs => v :: xs
  | n + 1, x :: xs => x :: listInsertAt v n xs

def move_effect (p : Pipeline κ π) (from_index to_index : Int) : Pipeline κ π :=
  if (0 ≤ from_index ∧ from_index < (p.effects.length : Int)) ∧
      (0 ≤ to_index ∧ to_index < (p.effects.length : Int)) then
    match listPopAt from_index.toNat p.effects with
    | some er => ({ p with effects := listInsertAt er.1 to_index.toNat er.2 }).save_state
    | none => p
  else p

def clear (p : Pipeline κ π) : Pipeline κ π :=
  ({ p with effects := [] }).save_state

/-- `Pipeline.apply`: fold the enabled instances over the buffer; a step
whose `apply` raises is logged and its input buffer is passed through. -/
def applyImage (applyFn : κ → Image → π → Except String Image) (p : Pipeline κ π)
    (image : Image) : Image :=
  p.effects.foldl
    (fun result e =>
      if e.enabled then
        match e.applyE applyFn result with
        | .ok r => r
        | .error _ => result
      else result)
    image.copy

/-- `undo`: move the cursor back and deep-copy that snapshot in. -/
def undo (p : Pipeline κ π) : Bool × Pipeline κ π :=
  if p.history_index > 0 then
    let idx := p.history_index - 1
    (true, { p with history_index := idx, effects := p.history.getD idx.toNat [] })
  else (false, p)

/-- `redo`: symmetric, bounded by the history length. -/
def redo (p : Pipeline κ π) : Bool × Pipeline κ π :=
  if p.history_index < (p.history.length : Int) - 1 then
    let idx := p.history_index + 1
    (true, { p with history_index := idx, effects := p.history.getD idx.toNat [] })
  else (false, p)

def can_undo (p : Pipeline κ π) : Bool := p.history_index > 0

def can_redo (p : Pipeline κ π) : Bool :=
  p.history_index < (p.history.length : Int) - 1

/-- One record of a serialized preset: the `"class"` identifier plus the
optional `"params"` / `"enabled"` entries read with `dict.get` defaults. -/
structure PresetRecord (π : Type) where
  className : String
  params : Option π
  enabled : Option Bool
deriving DecidableEq

/-- `from_dict`: rebuild the list from the records, skipping identifiers
that the registry does not resolve; reset the history and snapshot the
decoded state only when it is non-empty.  `emptyParams` stands for the
`{}` default of `effect_data.get("params", {})`. -/
def from_dict (p : Pipeline κ π) (records : List (PresetRecord π))
    (effect_registry : String → Option κ) (emptyParams : π) : Pipeline κ π :=
  let effects := records.foldl
    (fun acc r =>
      match effect_registry r.className with
      | some effect_class =>
        acc ++ [⟨effect_class, r.params.getD emptyParams, r.enabled.getD true⟩]
      | none => acc)
    []
  let p := { p with effects := effects, history := [], history_index := -1 }
  if p.effects.isEmpty then p else p.save_state

end Pipeline

/-- The pipeline mutations of §4.2, as one type. -/
inductive Mut (κ π : Type) where
  | add (effect_class : κ) (params : π)
  | remove (index : Int)
  | setEnabled (index : Int) (enabled : Bool)
  | updateParams (index : Int) (params : π)
  | move (from_index to_index : Int)
  | clear

namespace Mut

variable {κ π : Type}

def apply (p : Pipeline κ π) : Mut κ π → Pipeline κ π
  | .add ec ps => p.add_effect ec ps
  | .remove i => p.remove_effect i
  | .setEnabled i b => p.set_effect_enabled i b
  | .updateParams i ps => p.update_effect_params i ps
  | .move i j => p.move_effect i j
  | .clear => p.clear

/-- A mutation is effective when it actually mutates and snapshots
(the source treats out-of-range indices as no-ops). -/
def effectiveB (p : Pipeline κ π) : Mut κ π → Bool
  | .add _ _ => true
  | .remove i => decide (0 ≤ i ∧ i < (p.effects.length : Int))
  | .setEnabled i _ => decide (0 ≤ i ∧ i < (p.effects.length : Int))
  | .updateParams i _ => decide (0 ≤ i ∧ i < (p.effects.length : Int))
  | .move i j => decide ((0 ≤ i ∧ i < (p.effects.length : Int)) ∧
      (0 ≤ j ∧ j < (p.effects.length : Int)))
  | .clear => true

end Mut

/-- A pipeline whose cursor sits on a snapshot of the current list — the
state of every pipeline that has performed at least one snapshotting
operation (mutation, undo, redo or non-empty preset load).  The history
cap is at least 2, as the source's fixed cap of 50 is. -/
def Pipeline.Wf {κ π : Type} (p : Pipeline κ π) : Prop :=
  0 ≤ p.history_index ∧ p.history_index < (p.history.length : Int) ∧
    p.history.getD p.history_index.toNat [] = p.effects ∧ 2 ≤ p.max_history

instance {κ π : Type} [DecidableEq κ] [DecidableEq π] (p : Pipeline κ π) :
    Decidable p.Wf := by
  unfold Pipeline.Wf
  infer_instance


/-! ## Claims: concrete inputs -/

/-- The 100 × 100 all-mid-gray (128, 128, 128) image of the end-to-end example. -/
def img100 : Image := ⟨100, 100, 3, fun _ _ _ => 128⟩

/-- A 1 × 1 RGB image. -/
def img1 : Image := ⟨1, 1, 3, fun _ _ _ => 7⟩

/-- A 2 × 2 single-channel image with four distinct samples. -/
def img2 : Image := ⟨2, 2, 1, fun y x _ => (y * 2 + x + 1) * 10⟩

/-- A 4 × 6 RGB image: with `block_size = 4` its right edge tiles are
4 × 2, not square. -/
def img46 : Image := ⟨4, 6, 3, fun y x _ => y * 6 + x⟩

/-- Witness for C4 at a concrete failing effect. -/
def failFn : Unit → Image → Unit → Except String Image := fun _ _ _ => .error "boom"

/-- The i-th, (i+1)-st, ... integers drawn uniformly from
`[-max_shift, max_shift]` by the generator (the claim's `new_random`). -/
def drawList (max_shift : Int) : Nat → MT → List Int × MT
  | 0, g => ([], g)
  | n + 1, g =>
    let (r, g) := randint g (-max_shift) max_shift
    let (rest, g) := drawList max_shift n g
    (r :: rest, g)

/-- The claim's recurrence over a given draw sequence, amended to the
code's `int(...)` truncation toward zero:
`shift[i] = int(shift[i-1] * smoothness + new_random[i] * (1 - smoothness))`. -/
def specShiftsTrunc (smoothness : ℚ) : Int → List Int → List Int
  | _, [] => []
  | prev, r :: rs =>
    let s := ratTrunc ((prev : ℚ) * smoothness + (r : ℚ) * (1 - smoothness))
    s :: specShiftsTrunc smoothness s rs

/-- The full recurrence: `shift[0]` is the first draw itself. -/
def specShifts (smoothness : ℚ) : List Int → List Int
  | [] => []
  | r :: rs => r :: specShiftsTrunc smoothness r rs

/-- Concrete decode scenario for the C9 witness: one known and one
unknown identifier. -/
def presetRecsW : List (Pipeline.PresetRecord Nat) := [⟨"A", some 1, some false⟩, ⟨"Z", none, none⟩]

def regW : String → Option Nat := fun s => if s = "A" then some 0 else none

def pW : Pipeline Nat Nat := Pipeline.init

/-- Witness pipeline for C5: one recorded snapshot. -/
def pW1 : Pipeline Nat Nat := (Pipeline.init : Pipeline Nat Nat).add_effect 0 0

/-! ## C1 — Posterize on all-128 input with levels = 2 -/

/-- C1 counterexample: the claim says every sample of
`Posterize.apply` on the all-128 image with `levels = 2, dither = false`
is 0; in fact `step = 256 // 2 = 128` and `128 // 128 * 128 = 128`, so the
sample at (0,0,0) is 128, not 0. -/
theorem posterize_mid_gray_not_zero :
    exceptOkAnd (fun out => out.pix 0 0 0 == 128 && !(out.pix 0 0 0 == 0))
      (Posterize.apply img100 ⟨2, false⟩) = true := by
  decide

/-- Claim C1 (corrected): for the 100 × 100 all-128 3-channel image,
`Posterize.apply` with `levels = 2, dither = false` returns a buffer of the
same shape in which every sample equals 128 (the buffer equals the input). -/
theorem posterize_mid_gray_all_128 :
    ExceptOkP (fun out => out.h = 100 ∧ out.w = 100 ∧ out.c = 3 ∧
        ∀ y x ch, out.pix y x ch = 128)
      (Posterize.apply img100 ⟨2, false⟩) := by
  refine ⟨rfl, rfl, rfl, fun y x ch => ?_⟩
  have hd : (Int.fdiv 256 (pyMaxI 2 (pyMinI 256 ((⟨2, false⟩ : PosterizeParams).levels)))).toNat
      = 128 := by decide
  show img100.pix y x ch /
        (Int.fdiv 256 (pyMaxI 2 (pyMinI 256 ((⟨2, false⟩ : PosterizeParams).levels)))).toNat *
        (Int.fdiv 256 (pyMaxI 2 (pyMinI 256 ((⟨2, false⟩ : PosterizeParams).levels)))).toNat % 256
      = 128
  rw [hd]
  show (128 : Nat) / 128 * 128 % 256 = 128
  rfl

/-! ## C3 — BlockShuffle raises on rotated non-square edge tiles -/

/-- Claim C3 (code bug): on the 4 × 6 image with `block_size = 4`,
`block_transform = "rotate"`, `seed = 42` and the default
`shuffle_strength = 0.3`, the edge tile (0,1) is 4 × 2, its per-tile seed
43 draws `k = 1`, `np.rot90` turns it into a 2 × 4 block, and the region
assignment raises `ValueError` — `apply` does not return a buffer. -/
theorem blockshuffle_rotate_edge_tile_raises :
    exceptIsErr (BlockShuffle.apply (pySeedNat 0) img46 ⟨4, 3 / 10, "rotate", 42⟩).1 = true := by
  decide!

/-! ## C4 — a failing step is isolated inside Pipeline.apply -/

/-- Claim C4: if the effect class of an enabled instance `e` raises on the
buffer produced by the instances before it, `Pipeline.apply` neither
propagates the exception nor loses the buffer: the failing step passes its
input buffer through unchanged and the remaining steps run on it, so the
run equals the run of the pipeline without that instance. -/
theorem pipeline_failing_step_is_identity {κ π : Type}
    (applyFn : κ → Image → π → Except String Image)
    (es1 es2 : List (EffectInstance κ π)) (e : EffectInstance κ π)
    (hist : List (List (EffectInstance κ π))) (idx : Int) (mh : Nat)
    (image : Image) (msg : String)
    (he : e.enabled = true)
    (hfail : applyFn e.effect_class
        (Pipeline.applyImage applyFn ⟨es1, hist, idx, mh⟩ image) e.params = .error msg) :
    Pipeline.applyImage applyFn ⟨es1 ++ e :: es2, hist, idx, mh⟩ image =
      Pipeline.applyImage applyFn ⟨es1 ++ es2, hist, idx, mh⟩ image := by
  simp only [Pipeline.applyImage] at hfail ⊢
  unfold EffectInstance.applyE at hfail ⊢
  rw [List.foldl_append, List.foldl_append, List.foldl_cons]
  rw [he]
  rw [if_pos rfl, if_neg (by decide), hfail]


theorem pipeline_failing_step_is_identity_witness :
    (⟨(), (), true⟩ : EffectInstance Unit Unit).enabled = true ∧
    failFn () (Pipeline.applyImage failFn ⟨[], [], -1, 50⟩ img1) () = .error "boom" ∧
    Pipeline.applyImage failFn ⟨[] ++ (⟨(), (), true⟩ : EffectInstance Unit Unit) :: [], [], -1, 50⟩ img1 =
      Pipeline.applyImage failFn ⟨[] ++ [], [], -1, 50⟩ img1 :=
  ⟨rfl, rfl, pipeline_failing_step_is_identity failFn [] [] ⟨(), (), true⟩ [] (-1) 50 img1 "boom" rfl rfl⟩

/-! ## C6 — seeded determinism of apply -/

/-- Claim C6: every effect whose parameter set carries a `seed`
(`BlockShuffle`, `ShiftRowsColumns`, and `Warp` — whose `"noise"` field is
the seeded path) reseeds the generator from the `seed` parameter before
drawing, so the returned buffer is independent of the incoming global
generator state: two calls of `apply` with identical image and parameters
(including the seed) give identical output, whatever happened in between.
For `Warp` the statement quantifies over arbitrary models of the external
pure functions `math.sin` / `math.cos` / `math.radians` and `cv2.remap`,
so it holds in particular for the actual library implementations. -/
theorem seeded_apply_deterministic (g1 g2 : MT) (image : Image)
    (pb : BSParams) (ps : ShiftParams) (pw : WarpParams)
    (msin mcos mradians : ℚ → ℚ)
    (remapFn : Image → (Nat → Nat → ℚ) → (Nat → Nat → ℚ) → Nat → Image) :
    (BlockShuffle.apply g1 image pb).1 = (BlockShuffle.apply g2 image pb).1 ∧
    (ShiftRowsColumns.apply g1 image ps).1 = (ShiftRowsColumns.apply g2 image ps).1 ∧
    (Warp.apply msin mcos mradians remapFn g1 image pw).1
      = (Warp.apply msin mcos mradians remapFn g2 image pw).1 := by
  refine ⟨?_, rfl, ?_⟩
  · by_cases h : pb.block_size = 0 <;>
      simp only [BlockShuffle.apply, h, if_true, if_false, ite_true, ite_false]
  · by_cases hw : pw.type = "wave"
    · simp only [Warp.apply, hw]
      rfl
    · by_cases hn : pw.type = "noise" <;> simp only [Warp.apply, hw, hn] <;> rfl

/-! ## C7 — the global generator is mutated, not preserved -/

/-- C7 counterexample: `BlockShuffle.apply` reseeds and leaves the shared
global generator in a different state than it found it (here: seed
parameter 42 against a prior state seeded with 0, with
`shuffle_strength = 0` so no draws follow the reseed). -/
theorem blockshuffle_mutates_global_rng :
    (BlockShuffle.apply (pySeedNat 0) img1 ⟨32, 0, "none", 42⟩).2 ≠ pySeedNat 0 := by
  decide!

/-- Claim C7 (corrected): `apply`/`randomize` do not preserve the global
generator — they overwrite it: the state after the call is a function of
the call's own parameters alone, independent of the prior global state
(shown for `BlockShuffle.apply` away from its pre-seed `ZeroDivisionError`
path, and for the base `Effect.randomize` with a given seed). -/
theorem rng_state_after_call_is_reseeded {π : Type} (g1 g2 : MT) (image : Image)
    (pb : BSParams) (params : π) (s : Int) (hbs : pb.block_size ≠ 0) :
    (BlockShuffle.apply g1 image pb).2 = (BlockShuffle.apply g2 image pb).2 ∧
    (Effect.randomize g1 params (some s)).2 = (Effect.randomize g2 params (some s)).2 := by
  constructor
  · simp only [BlockShuffle.apply, hbs, if_false, ite_false]
  · rfl

theorem rng_state_after_call_is_reseeded_witness :
    ((⟨32, 0, "none", 42⟩ : BSParams).block_size ≠ 0) ∧
    ((BlockShuffle.apply (pySeedNat 1) img1 ⟨32, 0, "none", 42⟩).2 =
        (BlockShuffle.apply (pySeedNat 2) img1 ⟨32, 0, "none", 42⟩).2 ∧
      (Effect.randomize (pySeedNat 1) (0 : Nat) (some 9)).2 =
        (Effect.randomize (pySeedNat 2) (0 : Nat) (some 9)).2) :=
  ⟨by decide, rng_state_after_call_is_reseeded (pySeedNat 1) (pySeedNat 2) img1
    ⟨32, 0, "none", 42⟩ (0 : Nat) 9 (by decide)⟩

/-! ## C10 — the first mutation cannot be undone -/

/-- Claim C10: on a freshly constructed pipeline the pre-mutation (empty)
state is never snapshotted: after any single mutation `can_undo` is
`false` and `undo` returns `false` leaving the pipeline unchanged, so no
sequence of undos reaches the empty state again. -/
theorem first_mutation_cannot_be_undone {κ π : Type} (μ : Mut κ π) :
    (Mut.apply Pipeline.init μ).can_undo = false ∧
    (Mut.apply Pipeline.init μ).undo = (false, Mut.apply Pipeline.init μ) := by
  cases μ with
  | add ec ps => exact ⟨rfl, rfl⟩
  | remove i =>
    simp only [Mut.apply, Pipeline.remove_effect, Pipeline.init]
    rw [if_neg (by simp)]
    exact ⟨rfl, rfl⟩
  | setEnabled i b =>
    simp only [Mut.apply, Pipeline.set_effect_enabled, Pipeline.init]
    rw [if_neg (by simp)]
    exact ⟨rfl, rfl⟩
  | updateParams i ps =>
    simp only [Mut.apply, Pipeline.update_effect_params, Pipeline.init]
    rw [if_neg (by simp)]
    exact ⟨rfl, rfl⟩
  | move i j =>
    simp only [Mut.apply, Pipeline.move_effect, Pipeline.init]
    rw [if_neg (by simp)]
    exact ⟨rfl, rfl⟩
  | clear => exact ⟨rfl, rfl⟩

/-! ## C8 — the shift recurrence -/


theorem gen_shifts_aux_eq_spec (m : Int) (σ : ℚ) :
    ∀ (n : Nat) (prev : Int) (g : MT),
      ShiftRowsColumns.gen_shifts_aux m σ prev n g
        = (specShiftsTrunc σ prev (drawList m n g).1, (drawList m n g).2) := by
  intro n
  induction n with
  | zero => intro prev g; rfl
  | succ n ih =>
    intro prev g
    simp only [ShiftRowsColumns.gen_shifts_aux, drawList]
    rcases hr : randint g (-m) m with ⟨r, g1⟩
    simp only [hr, ih, specShiftsTrunc]

theorem gen_shifts_eq_spec (m : Int) (σ : ℚ) (n : Nat) (g : MT) :
    ShiftRowsColumns.gen_shifts m σ n g
      = (specShifts σ (drawList m n g).1, (drawList m n g).2) := by
  cases n with
  | zero => rfl
  | succ n =>
    simp only [ShiftRowsColumns.gen_shifts, drawList]
    rcases hr : randint g (-m) m with ⟨r, g1⟩
    simp only [hr, gen_shifts_aux_eq_spec, specShifts]

/-- Claim C8 (corrected): the shift sequences used by `_shift_rows` and
`_shift_columns` satisfy `shift[0] = new_random[0]` and
`shift[i] = int(shift[i-1]·smoothness + new_random[i]·(1-smoothness))` —
truncation toward zero, not `round` — where `new_random` are the
successive uniform draws from `[-max_shift, max_shift]` of the generator
seeded with the base seed for rows and with `seed + 1000` for columns. -/
theorem shift_sequences_satisfy_trunc_recurrence (seed max_shift : Int) (smoothness : ℚ)
    (n : Nat) :
    (ShiftRowsColumns.row_shifts seed max_shift smoothness n).1
        = specShifts smoothness (drawList max_shift n (pySeedInt seed)).1 ∧
    (ShiftRowsColumns.col_shifts seed max_shift smoothness n).1
        = specShifts smoothness (drawList max_shift n (pySeedInt (seed + 1000))).1 := by
  constructor
  · unfold ShiftRowsColumns.row_shifts
    rw [gen_shifts_eq_spec]
  · unfold ShiftRowsColumns.col_shifts
    rw [gen_shifts_eq_spec]

/-- C8 counterexample: with `seed = 5`, `max_shift = 20`,
`smoothness = 0.5` the first two row draws are 19 and -4; the code's
`shift[1] = int(19·0.5 + (-4)·0.5) = int(7.5) = 7`, while the claim's
`round(7.5) = 8`. -/
theorem shift_recurrence_round_fails :
    (ShiftRowsColumns.row_shifts 5 20 (1 / 2) 2).1.getD 1 0 = 7 ∧
    round (((ShiftRowsColumns.row_shifts 5 20 (1 / 2) 2).1.getD 0 0 : ℚ) * (1 / 2)
        + ((drawList 20 2 (pySeedInt 5)).1.getD 1 0 : ℚ) * (1 - 1 / 2)) = (8 : Int) := by
  constructor
  · decide!
  · have h0 : (ShiftRowsColumns.row_shifts 5 20 (1 / 2) 2).1.getD 0 0 = 19 := by decide!
    have h1 : (drawList 20 2 (pySeedInt 5)).1.getD 1 0 = -4 := by decide!
    rw [h0, h1]
    norm_num [round_eq]

/-! ## C9 — preset decoding -/

theorem from_dict_foldl_eq_filterMap {κ π : Type} (reg : String → Option κ) (emptyParams : π) :
    ∀ (records : List (Pipeline.PresetRecord π)) (acc : List (EffectInstance κ π)),
      records.foldl
        (fun acc r =>
          match reg r.className with
          | some effect_class =>
            acc ++ [⟨effect_class, r.params.getD emptyParams, r.enabled.getD true⟩]
          | none => acc)
        acc
      = acc ++ records.filterMap (fun r => (reg r.className).map
          (fun ec => EffectInstance.mk ec (r.params.getD emptyParams) (r.enabled.getD true)))
  | [], acc => by simp
  | r :: rs, acc => by
    simp only [List.foldl_cons, List.filterMap_cons]
    cases hreg : reg r.className with
    | none => simpa using from_dict_foldl_eq_filterMap reg emptyParams rs acc
    | some ec =>
      simp only [Option.map_some]
      rw [from_dict_foldl_eq_filterMap reg emptyParams rs]
      simp

/-- Claim C9 (corrected): `from_dict` decodes exactly the records whose
identifier resolves in the registry, in order (unknown identifiers are
skipped without error); the history is reset and then holds exactly one
snapshot of the decoded list with the cursor on it **when that list is
non-empty** — when every record is skipped (or there are none), the
history stays empty with the cursor at -1 and no snapshot is taken. -/
theorem save_state_fresh {κ π : Type} (p : Pipeline κ π) (es : List (EffectInstance κ π))
    (hmh : 1 ≤ p.max_history) :
    Pipeline.save_state { p with effects := es, history := [], history_index := -1 }
      = { p with effects := es, history := [es], history_index := 0 } := by
  simp only [Pipeline.save_state, List.length_nil]
  split_ifs with h1 h2 h3 <;>
    first
      | (exfalso; omega)
      | (exfalso;
         simp only [List.take_nil, List.nil_append, List.length_cons, List.length_nil] at *;
         omega)
      | simp

theorem from_dict_decodes {κ π : Type} (p : Pipeline κ π)
    (records : List (Pipeline.PresetRecord π)) (reg : String → Option κ) (emptyParams : π)
    (hmh : 1 ≤ p.max_history) :
    (p.from_dict records reg emptyParams).effects
        = records.filterMap (fun r => (reg r.className).map
            (fun ec => EffectInstance.mk ec (r.params.getD emptyParams) (r.enabled.getD true))) ∧
    (p.from_dict records reg emptyParams).history
        = (if (p.from_dict records reg emptyParams).effects.isEmpty then []
           else [(p.from_dict records reg emptyParams).effects]) ∧
    (p.from_dict records reg emptyParams).history_index
        = (if (p.from_dict records reg emptyParams).effects.isEmpty then -1 else 0) := by
  unfold Pipeline.from_dict
  rw [from_dict_foldl_eq_filterMap reg emptyParams records []]
  simp only [List.nil_append]
  cases hE : (records.filterMap (fun r => (reg r.className).map
      (fun ec => EffectInstance.mk ec (r.params.getD emptyParams) (r.enabled.getD true)))).isEmpty with
  | true => simp [hE]
  | false =>
    simp only [hE, Bool.false_eq_true, if_false, ite_false]
    rw [save_state_fresh p _ hmh]
    simp [hE]

/-- C9 counterexample: decoding an empty record list leaves the history
empty with the cursor at -1 — not "exactly one snapshot with the cursor
on it" as the claim states for every record list. -/
theorem from_dict_empty_records_no_snapshot :
    ¬ (((Pipeline.init : Pipeline Nat Nat).from_dict [] (fun _ => none) 0).history
          = [((Pipeline.init : Pipeline Nat Nat).from_dict [] (fun _ => none) 0).effects] ∧
        ((Pipeline.init : Pipeline Nat Nat).from_dict [] (fun _ => none) 0).history_index = 0) := by
  decide


theorem from_dict_decodes_witness :
    1 ≤ pW.max_history ∧
    ((pW.from_dict presetRecsW regW 7).effects
        = presetRecsW.filterMap (fun r => (regW r.className).map
            (fun ec => EffectInstance.mk ec (r.params.getD 7) (r.enabled.getD true))) ∧
      (pW.from_dict presetRecsW regW 7).history
        = (if (pW.from_dict presetRecsW regW 7).effects.isEmpty then []
           else [(pW.from_dict presetRecsW regW 7).effects]) ∧
      (pW.from_dict presetRecsW regW 7).history_index
        = (if (pW.from_dict presetRecsW regW 7).effects.isEmpty then -1 else 0)) :=
  ⟨by decide, from_dict_decodes pW presetRecsW regW 7 (by decide)⟩

/-! ## C5 — undo/redo inverse law -/

theorem listGetD_append_left {α : Type} (d : α) :
    ∀ (xs ys : List α) (i : Nat), i < xs.length → (xs ++ ys).getD i d = xs.getD i d
  | [], _, i, h => absurd h (by simp)
  | _ :: _, _, 0, _ => rfl
  | x :: xs, ys, i + 1, h => by
    simp only [List.cons_append, List.getD_cons_succ]
    exact listGetD_append_left d xs ys i (by simpa using h)

theorem listGetD_append_last {α : Type} (d : α) :
    ∀ (xs : List α) (a : α), (xs ++ [a]).getD xs.length d = a
  | [], a => rfl
  | x :: xs, a => by
    simpa only [List.cons_append, List.length_cons, List.getD_cons_succ] using
      listGetD_append_last d xs a

theorem listGetD_append_at {α : Type} (d : α) (xs : List α) (a : α) (i : Nat)
    (h : i = xs.length) : (xs ++ [a]).getD i d = a := by
  subst h; exact listGetD_append_last d xs a

theorem listGetD_take {α : Type} (d : α) :
    ∀ (xs : List α) (n i : Nat), i < n → (xs.take n).getD i d = xs.getD i d
  | [], _, _, _ => by simp
  | _ :: _, _ + 1, 0, _ => rfl
  | x :: xs, n + 1, i + 1, h => by
    simp only [List.take_succ_cons, List.getD_cons_succ]
    exact listGetD_take d xs n i (by omega)
  | _ :: _, 0, _, h => absurd h (by omega)

theorem listGetD_drop_one {α : Type} (d : α) :
    ∀ (xs : List α) (i : Nat), (xs.drop 1).getD i d = xs.getD (i + 1) d
  | [], _ => rfl
  | _ :: _, _ => rfl

/-- After `_save_state` on a state whose cursor sits on a snapshot of the
pre-mutation list, `undo` succeeds and restores that list, and `redo`
after it restores the newly saved list. -/
theorem save_state_restore {κ π : Type} (p : Pipeline κ π) (es : List (EffectInstance κ π))
    (h0 : 0 ≤ p.history_index) (h1 : p.history_index < (p.history.length : Int))
    (h2 : p.history.getD p.history_index.toNat [] = p.effects) (h3 : 2 ≤ p.max_history) :
    (Pipeline.save_state { p with effects := es }).effects = es ∧
    (Pipeline.save_state { p with effects := es }).undo.1 = true ∧
    (Pipeline.save_state { p with effects := es }).undo.2.effects = p.effects ∧
    (Pipeline.save_state { p with effects := es }).undo.2.redo.1 = true ∧
    (Pipeline.save_state { p with effects := es }).undo.2.redo.2.effects
      = (Pipeline.save_state { p with effects := es }).effects := by
  obtain ⟨k, hk⟩ : ∃ k : Nat, p.history_index = (k : Int) :=
    ⟨p.history_index.toNat, (Int.toNat_of_nonneg h0).symm⟩
  have hkn : k < p.history.length := by omega
  have h2k : p.history.getD k [] = p.effects := by
    have : p.history_index.toNat = k := by omega
    rwa [this] at h2
  have hlen_take : (p.history.take (k + 1)).length = k + 1 := by
    rw [List.length_take]; omega
  have htr : (if p.history_index < (p.history.length : Int) - 1
      then p.history.take (p.history_index + 1).toNat else p.history)
      = p.history.take (k + 1) := by
    rw [hk]
    split_ifs with h
    · have hto : ((k : Int) + 1).toNat = k + 1 := by omega
      rw [hto]
    · exact (List.take_of_length_le (by omega)).symm
  have hlen2 : (p.history.take (k + 1) ++ [es]).length = k + 2 := by
    simp [hlen_take]
  have hq : Pipeline.save_state { p with effects := es }
      = (if ((p.history.take (k + 1) ++ [es]).length : Int) > (p.max_history : Int) then
          { p with
              effects := es
              history := (p.history.take (k + 1) ++ [es]).drop 1
              history_index := p.history_index + 1 - 1 }
        else
          { p with
              effects := es
              history := p.history.take (k + 1) ++ [es]
              history_index := p.history_index + 1 }) := by
    unfold Pipeline.save_state
    dsimp only
    rw [htr]
  rw [hq]
  split_ifs with hcap
  · -- the oldest snapshot is evicted; the cursor stays at k
    have hk1 : 1 ≤ k := by rw [hlen2] at hcap; omega
    have hu : (({ p with
        effects := es
        history := (p.history.take (k + 1) ++ [es]).drop 1
        history_index := p.history_index + 1 - 1 } : Pipeline κ π)).undo
        = (true, { p with
            history := (p.history.take (k + 1) ++ [es]).drop 1
            history_index := p.history_index + 1 - 1 - 1
            effects := ((p.history.take (k + 1) ++ [es]).drop 1).getD
              (p.history_index + 1 - 1 - 1).toNat [] }) := by
      unfold Pipeline.undo
      rw [if_pos (by dsimp only; omega)]
    rw [hu]
    have hue : ((p.history.take (k + 1) ++ [es]).drop 1).getD
        (p.history_index + 1 - 1 - 1).toNat [] = p.effects := by
      have hidx : (p.history_index + 1 - 1 - 1).toNat = k - 1 := by omega
      rw [hidx, listGetD_drop_one]
      have : k - 1 + 1 = k := by omega
      rw [this, listGetD_append_left _ _ _ _ (by omega), listGetD_take _ _ _ _ (by omega), h2k]
    have hr : (({ p with
        history := (p.history.take (k + 1) ++ [es]).drop 1
        history_index := p.history_index + 1 - 1 - 1
        effects := ((p.history.take (k + 1) ++ [es]).drop 1).getD
          (p.history_index + 1 - 1 - 1).toNat [] } : Pipeline κ π)).redo
        = (true, { p with
            history := (p.history.take (k + 1) ++ [es]).drop 1
            history_index := p.history_index + 1 - 1 - 1 + 1
            effects := ((p.history.take (k + 1) ++ [es]).drop 1).getD
              (p.history_index + 1 - 1 - 1 + 1).toNat [] }) := by
      unfold Pipeline.redo
      rw [if_pos (by dsimp only; simp only [List.length_drop, hlen2]; omega)]
    rw [hr]
    have hre : ((p.history.take (k + 1) ++ [es]).drop 1).getD
        (p.history_index + 1 - 1 - 1 + 1).toNat [] = es := by
      have hidx : (p.history_index + 1 - 1 - 1 + 1).toNat = k := by omega
      rw [hidx, listGetD_drop_one]
      exact listGetD_append_at _ _ _ _ hlen_take.symm
    rw [hue, hre]
    exact ⟨rfl, rfl, rfl, rfl, rfl⟩
  · -- no eviction
    have hu : (({ p with
        effects := es
        history := p.history.take (k + 1) ++ [es]
        history_index := p.history_index + 1 } : Pipeline κ π)).undo
        = (true, { p with
            history := p.history.take (k + 1) ++ [es]
            history_index := p.history_index + 1 - 1
            effects := (p.history.take (k + 1) ++ [es]).getD
              (p.history_index + 1 - 1).toNat [] }) := by
      unfold Pipeline.undo
      rw [if_pos (by dsimp only; omega)]
    rw [hu]
    have hue : (p.history.take (k + 1) ++ [es]).getD (p.history_index + 1 - 1).toNat []
        = p.effects := by
      have hidx : (p.history_index + 1 - 1).toNat = k := by omega
      rw [hidx, listGetD_append_left _ _ _ _ (by omega), listGetD_take _ _ _ _ (by omega), h2k]
    have hr : (({ p with
        history := p.history.take (k + 1) ++ [es]
        history_index := p.history_index + 1 - 1
        effects := (p.history.take (k + 1) ++ [es]).getD
          (p.history_index + 1 - 1).toNat [] } : Pipeline κ π)).redo
        = (true, { p with
            history := p.history.take (k + 1) ++ [es]
            history_index := p.history_index + 1 - 1 + 1
            effects := (p.history.take (k + 1) ++ [es]).getD
              (p.history_index + 1 - 1 + 1).toNat [] }) := by
      unfold Pipeline.redo
      rw [if_pos (by dsimp only; simp only [hlen2]; omega)]
    rw [hr]
    have hre : (p.history.take (k + 1) ++ [es]).getD (p.history_index + 1 - 1 + 1).toNat []
        = es := by
      have hidx : (p.history_index + 1 - 1 + 1).toNat = k + 1 := by omega
      rw [hidx]
      exact listGetD_append_at _ _ _ _ hlen_take.symm
    rw [hue, hre]
    exact ⟨rfl, rfl, rfl, rfl, rfl⟩

theorem listPopAt_of_lt {α : Type} :
    ∀ (i : Nat) (xs : List α), i < xs.length → ∃ er, Pipeline.listPopAt i xs = some er
  | _, [], h => absurd h (by simp)
  | 0, x :: xs, _ => ⟨(x, xs), rfl⟩
  | i + 1, x :: xs, h => by
    obtain ⟨er, her⟩ := listPopAt_of_lt i xs (by simpa using h)
    exact ⟨(er.1, x :: er.2), by simp [Pipeline.listPopAt, her]⟩

/-- Claim C5 (corrected): for a pipeline that has already recorded at
least one snapshot of its current list (`Pipeline.Wf` — true after any
earlier mutation, undo, redo or non-empty preset load, but not on a fresh
pipeline), every effective mutation (in-range indices; out-of-range calls
are no-ops that save nothing) can be undone: `undo()` returns true and
restores the pre-mutation instance list, and `redo()` right after returns
true and restores the post-mutation list.  The first mutation of a fresh
pipeline is the exception the original claim misses. -/
theorem undo_redo_inverse {κ π : Type} (p : Pipeline κ π) (μ : Mut κ π)
    (hwf : p.Wf) (heff : Mut.effectiveB p μ = true) :
    ((μ.apply p).undo.1 = true) ∧ ((μ.apply p).undo.2.effects = p.effects) ∧
    ((μ.apply p).undo.2.redo.1 = true) ∧
    ((μ.apply p).undo.2.redo.2.effects = (μ.apply p).effects) := by
  obtain ⟨h0, h1, h2, h3⟩ := hwf
  cases μ with
  | add ec ps =>
    have h := save_state_restore p (p.effects ++ [EffectInstance.mk ec ps true]) h0 h1 h2 h3
    exact ⟨h.2.1, h.2.2.1, h.2.2.2.1, h.2.2.2.2⟩
  | remove i =>
    have hi : 0 ≤ i ∧ i < (p.effects.length : Int) := of_decide_eq_true heff
    have happ : Mut.apply p (Mut.remove i)
        = Pipeline.save_state { p with effects := p.effects.eraseIdx i.toNat } := by
      simp only [Mut.apply, Pipeline.remove_effect, if_pos hi]
    rw [happ]
    have h := save_state_restore p (p.effects.eraseIdx i.toNat) h0 h1 h2 h3
    exact ⟨h.2.1, h.2.2.1, h.2.2.2.1, h.2.2.2.2⟩
  | setEnabled i b =>
    have hi : 0 ≤ i ∧ i < (p.effects.length : Int) := of_decide_eq_true heff
    have happ : Mut.apply p (Mut.setEnabled i b)
        = Pipeline.save_state { p with effects := Pipeline.listModify (fun e => { e with enabled := b }) i.toNat p.effects } := by
      simp only [Mut.apply, Pipeline.set_effect_enabled, if_pos hi]
    rw [happ]
    have h := save_state_restore p (Pipeline.listModify (fun e => { e with enabled := b }) i.toNat p.effects) h0 h1 h2 h3
    exact ⟨h.2.1, h.2.2.1, h.2.2.2.1, h.2.2.2.2⟩
  | updateParams i ps =>
    have hi : 0 ≤ i ∧ i < (p.effects.length : Int) := of_decide_eq_true heff
    have happ : Mut.apply p (Mut.updateParams i ps)
        = Pipeline.save_state { p with effects := Pipeline.listModify (fun e => { e with params := ps }) i.toNat p.effects } := by
      simp only [Mut.apply, Pipeline.update_effect_params, if_pos hi]
    rw [happ]
    have h := save_state_restore p (Pipeline.listModify (fun e => { e with params := ps }) i.toNat p.effects) h0 h1 h2 h3
    exact ⟨h.2.1, h.2.2.1, h.2.2.2.1, h.2.2.2.2⟩
  | move i j =>
    have hij : (0 ≤ i ∧ i < (p.effects.length : Int)) ∧
        (0 ≤ j ∧ j < (p.effects.length : Int)) := of_decide_eq_true heff
    obtain ⟨er, her⟩ := listPopAt_of_lt i.toNat p.effects (by omega)
    have happ : Mut.apply p (Mut.move i j)
        = Pipeline.save_state { p with effects := Pipeline.listInsertAt er.1 j.toNat er.2 } := by
      simp only [Mut.apply, Pipeline.move_effect, if_pos hij, her]
    rw [happ]
    have h := save_state_restore p (Pipeline.listInsertAt er.1 j.toNat er.2) h0 h1 h2 h3
    exact ⟨h.2.1, h.2.2.1, h.2.2.2.1, h.2.2.2.2⟩
  | clear =>
    have h := save_state_restore p [] h0 h1 h2 h3
    exact ⟨h.2.1, h.2.2.1, h.2.2.2.1, h.2.2.2.2⟩

/-- C5 counterexample: after the very first mutation of a fresh pipeline
(a single `add_effect`), `undo()` returns false and does not restore the
pre-mutation (empty) list, although the claim promises it for any
mutation sequence. -/
theorem undo_after_sole_mutation_fails :
    (((Pipeline.init : Pipeline Nat Nat).add_effect 0 0).undo.1 = false) ∧
    ((Pipeline.init : Pipeline Nat Nat).add_effect 0 0).undo.2.effects
      ≠ (Pipeline.init : Pipeline Nat Nat).effects := by
  decide


theorem undo_redo_inverse_witness :
    (pW1.Wf ∧ Mut.effectiveB pW1 (Mut.add 1 1) = true) ∧
    ((((Mut.add 1 1).apply pW1).undo.1 = true) ∧
      (((Mut.add 1 1).apply pW1).undo.2.effects = pW1.effects) ∧
      (((Mut.add 1 1).apply pW1).undo.2.redo.1 = true) ∧
      (((Mut.add 1 1).apply pW1).undo.2.redo.2.effects = ((Mut.add 1 1).apply pW1).effects)) :=
  ⟨⟨by decide, by decide⟩, undo_redo_inverse pW1 (Mut.add 1 1) (by decide) (by decide)⟩

/-! ## C2 — BlockShuffle at shuffle_strength 0 -/

/-- C2 counterexample: with `shuffle_strength = 0` but
`block_transform = "flip"`, the single 2 × 2 tile is still transformed in
place (seed 42 draws `random() ≈ 0.639 ≥ 0.5`, a horizontal flip), so the
output differs from the input — the claim's "any block_transform" fails. -/
theorem blockshuffle_strength_zero_flip_changes_output :
    exceptOkAnd (fun out => !(out.eqb img2))
      (BlockShuffle.apply (pySeedNat 0) img2 ⟨2, 0, "flip", 42⟩).1 = true := by
  decide!

theorem ratTrunc_mul_zero (q : ℚ) : ratTrunc (q * 0) = 0 := by
  rw [mul_zero]; rfl

theorem pySample_zero (g : MT) (pop : List Nat) : pySample g pop 0 = (.ok [], g) := by
  unfold pySample
  rw [if_neg (by omega)]
  dsimp only
  split_ifs <;> rfl

theorem transform_block_none (g : MT) (b : Image) (s : Int) :
    BlockShuffle.transform_block g b "none" s = (b, g) := rfl

theorem extractLoop_none (img : Image) (bs nbx : Nat) (seed : Int) :
    ∀ (pairs : List (Nat × Nat)) (g : MT),
      BlockShuffle.extractLoop img bs nbx "none" seed pairs g
        = (pairs.map (fun bp => img.slice (bp.1 * bs) (min (bp.1 * bs + bs) img.h)
            (bp.2 * bs) (min (bp.2 * bs + bs) img.w)), g)
  | [], _ => rfl
  | (bi, bj) :: rest, g => by
    simp only [BlockShuffle.extractLoop, transform_block_none, List.map_cons]
    rw [extractLoop_none img bs nbx seed rest g]
    rfl

theorem listGetD_range_self : ∀ (n t : Nat), (List.range n).getD t t = t := by
  intro n t
  by_cases h : t < n
  · simp [List.getD_eq_getElem?_getD, List.getElem?_range, h]
  · exact List.getD_eq_default _ _ (by simpa using Nat.le_of_not_lt h)

theorem listGetD_map_range {α : Type} (f : Nat → α) (N t : Nat) (d : α) (h : t < N) :
    ((List.range N).map f).getD t d = f t := by
  simp [List.getD_eq_getElem?_getD, List.getElem?_map, List.getElem?_range, h]

theorem pix_congr (im : Image) {a b c a2 b2 c2 : Nat} (h1 : a = a2) (h2 : b = b2)
    (h3 : c = c2) : im.pix a b c = im.pix a2 b2 c2 := by
  rw [h1, h2, h3]

theorem Image.eqb_true_of (a b : Image) (hh : a.h = b.h) (hw : a.w = b.w) (hc : a.c = b.c)
    (hpix : ∀ y x ch, y < a.h → x < a.w → ch < a.c → a.pix y x ch = b.pix y x ch) :
    a.eqb b = true := by
  unfold Image.eqb
  simp only [Bool.and_eq_true, beq_iff_eq, List.all_eq_true, List.mem_range]
  exact ⟨⟨⟨hh, hw⟩, hc⟩, fun y hy x hx ch hch => hpix y x ch hy hx hch⟩

/-- Writing the matching slice of `img` back onto a region keeps every
in-extent sample equal to `img`. -/
theorem Image.assign_slice (img result : Image) (y1 y2 x1 x2 : Nat)
    (hh : result.h = img.h) (hw : result.w = img.w) (hc : result.c = img.c)
    (hpix : ∀ y x ch, y < img.h → x < img.w → ch < img.c → result.pix y x ch = img.pix y x ch) :
    ∃ res, result.assign y1 y2 x1 x2 (img.slice y1 y2 x1 x2) = .ok res ∧
      res.h = img.h ∧ res.w = img.w ∧ res.c = img.c ∧
      ∀ y x ch, y < img.h → x < img.w → ch < img.c → res.pix y x ch = img.pix y x ch := by
  unfold Image.assign
  rw [if_pos ⟨Or.inl rfl, Or.inl rfl, Or.inl hc.symm⟩]
  refine ⟨_, rfl, hh, hw, hc, ?_⟩
  intro y x ch hy hx hch
  dsimp only [Image.slice]
  by_cases hreg : y1 ≤ y ∧ y < y2 ∧ x1 ≤ x ∧ x < x2
  · rw [if_pos hreg]
    obtain ⟨hr1, hr2, hr3, hr4⟩ := hreg
    split_ifs <;> exact pix_congr img (by omega) (by omega) (by omega)
  · rw [if_neg hreg]
    exact hpix y x ch hy hx hch

/-- With no shuffled tiles and an identity shuffle map, the reassembly
loop writes each tile's own content back: the result stays equal to the
input image on its extent. -/
theorem reassembleLoop_identity (img : Image) (bs nbx : Nat) (smap : List Nat)
    (blocks : List Image) (hsmap : ∀ t, smap.getD t t = t) :
    ∀ (pairs : List (Nat × Nat)) (result : Image),
      result.h = img.h → result.w = img.w → result.c = img.c →
      (∀ y x ch, y < img.h → x < img.w → ch < img.c → result.pix y x ch = img.pix y x ch) →
      (∀ bp ∈ pairs, blocks.getD (bp.1 * nbx + bp.2) Image.empty
          = img.slice (bp.1 * bs) (min (bp.1 * bs + bs) img.h)
              (bp.2 * bs) (min (bp.2 * bs + bs) img.w)) →
      ∃ res, BlockShuffle.reassembleLoop img bs nbx smap [] blocks pairs result = .ok res ∧
        res.h = img.h ∧ res.w = img.w ∧ res.c = img.c ∧
        ∀ y x ch, y < img.h → x < img.w → ch < img.c → res.pix y x ch = img.pix y x ch
  | [], result => fun hh hw hc hpix _ => ⟨result, rfl, hh, hw, hc, hpix⟩
  | (bi, bj) :: rest, result => by
    intro hh hw hc hpix hblocks
    simp only [BlockShuffle.reassembleLoop]
    rw [hsmap (bi * nbx + bj)]
    have hcont : (([] : List Nat).contains (bi * nbx + bj)) = false := rfl
    rw [hcont]
    simp only [Bool.false_eq_true, if_false, ite_false]
    rw [if_pos (by simp)]
    rw [hblocks (bi, bj) (List.mem_cons_self _ _)]
    obtain ⟨res1, hres1, hh1, hw1, hc1, hpix1⟩ :=
      Image.assign_slice img result (bi * bs) (min (bi * bs + bs) img.h)
        (bj * bs) (min (bj * bs + bs) img.w) hh hw hc hpix
    rw [hres1]
    exact reassembleLoop_identity img bs nbx smap blocks hsmap rest res1 hh1 hw1 hc1 hpix1
      (fun bp hbp => hblocks bp (List.mem_cons_of_mem _ hbp))

/-- Claim C2 (corrected): with `shuffle_strength = 0` **and**
`block_transform = "none"** (and `block_size ≠ 0`, which would raise
`ZeroDivisionError`), `BlockShuffle.apply` returns a buffer exactly equal
to the input for every image, block size and seed.  With the other
transform values the claim fails: tiles are still transformed in place
(see the counterexample), and `"rotate"` can even raise on non-square
edge tiles. -/
theorem pyShuffle_nil (g : MT) : pyShuffle g [] = ([], g) := rfl

theorem buildShuffleMap_nil (ini : List Nat) : BlockShuffle.buildShuffleMap ini [] = ini := rfl

/-- Reassembling the full grid of untouched tiles with an identity
shuffle map reproduces the input image on its extent. -/
theorem blockshuffle_reassemble_grid (img : Image) (bs nby nbx tcount : Nat) :
    ∃ res, BlockShuffle.reassembleLoop img bs nbx (List.range tcount) []
        ((BlockShuffle.gridPairs nby nbx).map
          (fun bp => img.slice (bp.1 * bs) (min (bp.1 * bs + bs) img.h)
            (bp.2 * bs) (min (bp.2 * bs + bs) img.w)))
        (BlockShuffle.gridPairs nby nbx) img.copy = .ok res ∧
      res.h = img.h ∧ res.w = img.w ∧ res.c = img.c ∧
      ∀ y x ch, y < img.h → x < img.w → ch < img.c → res.pix y x ch = img.pix y x ch := by
  apply reassembleLoop_identity img bs nbx (List.range tcount) _
      (fun t => listGetD_range_self _ t) (BlockShuffle.gridPairs nby nbx) img.copy rfl rfl rfl
      (fun _ _ _ _ _ _ => rfl)
  intro bp hbp
  simp only [BlockShuffle.gridPairs, List.mem_map, List.mem_range] at hbp
  obtain ⟨t, ht, rfl⟩ := hbp
  dsimp only
  have hidx : t / nbx * nbx + t % nbx = t := by
    rw [Nat.mul_comm]; exact Nat.div_add_mod t nbx
  rw [hidx]
  simp only [BlockShuffle.gridPairs, List.map_map]
  rw [listGetD_map_range _ _ _ _ ht]
  rfl

/-- Claim C2 (corrected): with `shuffle_strength = 0` **and**
`block_transform = "none"` (and `block_size ≠ 0`, which would raise
`ZeroDivisionError`), `BlockShuffle.apply` returns a buffer exactly equal
to the input for every image, block size and seed.  With the other
transform values the claim fails: tiles are still transformed in place
(see the counterexample), and `"rotate"` can even raise on non-square
edge tiles. -/
theorem blockshuffle_strength_zero_none_identity (g : MT) (img : Image) (bs seed : Int)
    (hbs : bs ≠ 0) :
    exceptOkAnd (fun out => out.eqb img)
      (BlockShuffle.apply g img ⟨bs, 0, "none", seed⟩).1 = true := by
  unfold BlockShuffle.apply
  rw [if_neg hbs]
  dsimp only
  rw [ratTrunc_mul_zero, pySample_zero]
  dsimp only
  rw [pyShuffle_nil]
  dsimp only
  rw [buildShuffleMap_nil, extractLoop_none]
  dsimp only
  obtain ⟨res, hres, hh, hw, hc, hpix⟩ := blockshuffle_reassemble_grid img bs.toNat
      (Int.fdiv ((img.h : Int) + bs - 1) bs).toNat (Int.fdiv ((img.w : Int) + bs - 1) bs).toNat
      (Int.fdiv ((img.h : Int) + bs - 1) bs * Int.fdiv ((img.w : Int) + bs - 1) bs).toNat
  rw [hres]
  unfold exceptOkAnd
  exact Image.eqb_true_of res img hh hw hc
    (fun y x ch hy hx hch => hpix y x ch (hh ▸ hy) (hw ▸ hx) (hc ▸ hch))

theorem blockshuffle_strength_zero_none_identity_witness :
    ((2 : Int) ≠ 0) ∧
    exceptOkAnd (fun out => out.eqb img2)
      (BlockShuffle.apply (pySeedNat 0) img2 ⟨2, 0, "none", 42⟩).1 = true :=
  ⟨by decide, blockshuffle_strength_zero_none_identity (pySeedNat 0) img2 2 42 (by decide)⟩

end FrameFactory
